import Mathlib

/-!
Verification of the sliding-window rate limiter in `src/main.py`
(`RateLimiter.is_allowed` and the `/status` handler `rate_limit_status`).

Modelling decisions:
* Python `time.time()` values (floats, seconds since epoch) are modelled as
  rationals `ℚ`; the current time is passed explicitly to each operation.
* Python `int(x)` truncates toward zero; this is `pyInt` below.
* `self.requests : Dict[str, List[float]]` is a `defaultdict(list)`, so it is
  modelled as a total function `String → List ℚ` whose default value is `[]`.
* `min` over a nonempty Python list is `listMin`; its value on `[]` (where
  Python would raise `ValueError`, unreachable for `max_requests = 5`) is an
  arbitrary default, and every theorem touching it ensures nonemptiness.
* The constructor hardcodes `max_requests = 5`, `time_window = 60`
  (`RateLimiter.init`); theorems are stated for arbitrary parameter values
  wherever they hold, which covers the hardcoded ones.
-/

namespace RateLimit

/-- Python `int(x)` on a float/rational: truncation toward zero. -/
def pyInt (q : ℚ) : ℤ := if 0 ≤ q then ⌊q⌋ else ⌈q⌉

/-- Python `min` over a list of floats; junk value `0` on `[]`
(where Python raises). -/
def listMin : List ℚ → ℚ
  | [] => 0
  | x :: xs => xs.foldl min x

/-- The list comprehension
`[req_time for req_time in request_times if req_time > cutoff_time]`. -/
def prune (l : List ℚ) (cutoff : ℚ) : List ℚ :=
  l.filter (fun x => decide (cutoff < x))

/-- The mutable state of the `RateLimiter` class. -/
structure RateLimiter where
  requests : String → List ℚ
  max_requests : ℕ
  time_window : ℚ

/-- `RateLimiter.__init__`: empty mapping, 5 requests per 60 seconds. -/
def RateLimiter.init : RateLimiter :=
  { requests := fun _ => [], max_requests := 5, time_window := 60 }

/-- The `rate_limit_info` dict built by `is_allowed`. -/
structure RateLimitInfo where
  allowed : Bool
  requests_made : ℕ
  requests_remaining : ℤ
  reset_time : ℤ
  retry_after : Option ℤ
  deriving DecidableEq

/-- `RateLimiter.is_allowed(client_ip)` at current time `t`: returns the
`(is_allowed, rate_limit_info)` pair together with the post-call state. -/
def is_allowed (s : RateLimiter) (client_ip : String) (t : ℚ) :
    (Bool × RateLimitInfo) × RateLimiter :=
  let cutoff_time := t - s.time_window
  let pruned := prune (s.requests client_ip) cutoff_time
  let n := pruned.length
  if n < s.max_requests then
    (⟨true,
      { allowed := true
        requests_made := n + 1
        requests_remaining := (s.max_requests : ℤ) - (n + 1)
        reset_time := pyInt (t + s.time_window)
        retry_after := none }⟩,
     { s with requests := Function.update s.requests client_ip (pruned ++ [t]) })
  else
    let oldest := listMin pruned
    (⟨false,
      { allowed := false
        requests_made := n
        requests_remaining := 0
        reset_time := pyInt (oldest + s.time_window)
        retry_after := some (max 1 (pyInt ((oldest + s.time_window) - t))) }⟩,
     { s with requests := Function.update s.requests client_ip pruned })

/-- The `rate_limit` dict built by the `/status` handler. -/
structure StatusInfo where
  requests_made : ℕ
  requests_remaining : ℤ
  reset_time : ℤ
  window_resets_in : ℤ
  deriving DecidableEq

/-- The `/status` handler `rate_limit_status` at current time `t`: computes the
status dict from a *view* of `rate_limiter.requests[client_ip]` (the local
`active_requests`), never writing anything back, so the state is returned
unchanged. -/
def rate_limit_status (s : RateLimiter) (client_ip : String) (t : ℚ) :
    StatusInfo × RateLimiter :=
  let cutoff_time := t - s.time_window
  let active_requests := prune (s.requests client_ip) cutoff_time
  let remaining_requests : ℤ := (s.max_requests : ℤ) - active_requests.length
  let reset_time : ℤ :=
    if active_requests = [] then pyInt (t + s.time_window)
    else pyInt (listMin active_requests + s.time_window)
  ({ requests_made := active_requests.length
     requests_remaining := max 0 remaining_requests
     reset_time := reset_time
     window_resets_in := max 0 (reset_time - pyInt t) }, s)

/-- `n` successive `is_allowed` calls for the same key at the same time. -/
def evalN (s : RateLimiter) (client_ip : String) (t : ℚ) : ℕ → RateLimiter
  | 0 => s
  | n + 1 => (is_allowed (evalN s client_ip t n) client_ip t).2

/-- `n` successive `/status` (peek) calls for the same key, threading state. -/
def peekN (s : RateLimiter) (client_ip : String) (t : ℚ) : ℕ → RateLimiter
  | 0 => s
  | n + 1 => (rate_limit_status (peekN s client_ip t n) client_ip t).2

/-! ### Helper lemmas -/

theorem mem_prune {l : List ℚ} {c x : ℚ} : x ∈ prune l c ↔ x ∈ l ∧ c < x := by
  simp [prune, List.mem_filter]

theorem prune_length_le (l : List ℚ) (c : ℚ) : (prune l c).length ≤ l.length :=
  List.length_filter_le _ l

theorem prune_length_lt {l : List ℚ} {c x : ℚ} (hx : x ∈ l) (hle : x ≤ c) :
    (prune l c).length < l.length := by
  induction l with
  | nil => simp at hx
  | cons a as ih =>
    rcases List.mem_cons.1 hx with rfl | hmem
    · have : ¬ c < x := not_lt.2 hle
      simp only [prune, List.filter_cons, this, decide_eq_true_eq, if_neg this,
        List.length_cons]
      exact Nat.lt_succ_of_le (prune_length_le as c)
    · have h := ih hmem
      by_cases hca : c < a
      · simpa [prune, List.filter_cons, hca] using Nat.succ_lt_succ h
      · simp only [prune, List.filter_cons, decide_eq_true_eq, if_neg hca,
          List.length_cons]
        exact Nat.lt_succ_of_lt h

theorem foldl_min_mem (x : ℚ) (xs : List ℚ) : xs.foldl min x ∈ x :: xs := by
  induction xs generalizing x with
  | nil => simp
  | cons y ys ih =>
    have h := ih (min x y)
    rcases List.mem_cons.1 h with h1 | h1
    · rcases min_choice x y with hm | hm <;> rw [List.foldl_cons, h1, hm] <;> simp
    · simp [List.foldl_cons, List.mem_cons.2 (Or.inr (List.mem_cons.2 (Or.inr h1)))]

theorem foldl_min_le_init (x : ℚ) (xs : List ℚ) : xs.foldl min x ≤ x := by
  induction xs generalizing x with
  | nil => exact le_refl x
  | cons y ys ih =>
    exact le_trans (ih (min x y)) (min_le_left x y)

theorem foldl_min_le_mem {z : ℚ} {xs : List ℚ} (x : ℚ) (hz : z ∈ xs) :
    xs.foldl min x ≤ z := by
  induction xs generalizing x with
  | nil => simp at hz
  | cons y ys ih =>
    rw [List.foldl_cons]
    rcases List.mem_cons.1 hz with rfl | hz1
    · exact le_trans (foldl_min_le_init (min x z) ys) (min_le_right x z)
    · exact ih (min x y) hz1

theorem foldl_min_le {x z : ℚ} {xs : List ℚ} (hz : z ∈ x :: xs) :
    xs.foldl min x ≤ z := by
  rcases List.mem_cons.1 hz with rfl | hz1
  · exact foldl_min_le_init z xs
  · exact foldl_min_le_mem x hz1

theorem listMin_mem {l : List ℚ} (h : l ≠ []) : listMin l ∈ l := by
  cases l with
  | nil => exact absurd rfl h
  | cons x xs => exact foldl_min_mem x xs

theorem listMin_le {l : List ℚ} {z : ℚ} (hz : z ∈ l) : listMin l ≤ z := by
  cases l with
  | nil => simp at hz
  | cons x xs => exact foldl_min_le hz

theorem pyInt_le_of_le {q w : ℚ} (h : q ≤ w) (hw : 0 ≤ w) : (pyInt q : ℚ) ≤ w := by
  unfold pyInt
  by_cases h0 : 0 ≤ q
  · rw [if_pos h0]
    exact le_trans (Int.floor_le q) h
  · rw [if_neg h0]
    push_neg at h0
    calc ((⌈q⌉ : ℤ) : ℚ) ≤ ((0 : ℤ) : ℚ) := by
          exact_mod_cast Int.ceil_le.2 (le_of_lt h0)
      _ ≤ w := by simpa using hw

theorem is_allowed_max_requests (s : RateLimiter) (key : String) (t : ℚ) :
    ((is_allowed s key t).2).max_requests = s.max_requests := by
  unfold is_allowed
  by_cases h : (prune (s.requests key) (t - s.time_window)).length < s.max_requests <;>
    simp [h]

theorem is_allowed_time_window (s : RateLimiter) (key : String) (t : ℚ) :
    ((is_allowed s key t).2).time_window = s.time_window := by
  unfold is_allowed
  by_cases h : (prune (s.requests key) (t - s.time_window)).length < s.max_requests <;>
    simp [h]

theorem is_allowed_requests_other (s : RateLimiter) (key other : String) (t : ℚ)
    (hne : other ≠ key) :
    ((is_allowed s key t).2).requests other = s.requests other := by
  unfold is_allowed
  by_cases h : (prune (s.requests key) (t - s.time_window)).length < s.max_requests <;>
    simp [h, Function.update_noteq hne]

theorem is_allowed_fst_congr (s s' : RateLimiter) (key : String) (t : ℚ)
    (hreq : s.requests key = s'.requests key)
    (hmax : s.max_requests = s'.max_requests)
    (hw : s.time_window = s'.time_window) :
    (is_allowed s key t).1 = (is_allowed s' key t).1 := by
  unfold is_allowed
  rw [hreq, hmax, hw]
  by_cases h :
      (prune (s'.requests key) (t - s'.time_window)).length < s'.max_requests <;>
    simp [h]

theorem rate_limit_status_fst_congr (s s' : RateLimiter) (key : String) (t : ℚ)
    (hreq : s.requests key = s'.requests key)
    (hmax : s.max_requests = s'.max_requests)
    (hw : s.time_window = s'.time_window) :
    (rate_limit_status s key t).1 = (rate_limit_status s' key t).1 := by
  unfold rate_limit_status
  rw [hreq, hmax, hw]

theorem rate_limit_status_snd (s : RateLimiter) (key : String) (t : ℚ) :
    (rate_limit_status s key t).2 = s := rfl

theorem peekN_eq (s : RateLimiter) (key : String) (t : ℚ) (n : ℕ) :
    peekN s key t n = s := by
  induction n with
  | zero => rfl
  | succ k ih => rw [peekN, ih]; rfl

theorem is_allowed_fst_fst (s : RateLimiter) (key : String) (t : ℚ) :
    (is_allowed s key t).1.1
      = decide ((prune (s.requests key) (t - s.time_window)).length
          < s.max_requests) := by
  unfold is_allowed
  by_cases h :
      (prune (s.requests key) (t - s.time_window)).length < s.max_requests <;>
    simp [h]

theorem is_allowed_deny_info (s : RateLimiter) (key : String) (t : ℚ)
    (h : ¬ (prune (s.requests key) (t - s.time_window)).length
          < s.max_requests) :
    (is_allowed s key t).1.2
      = { allowed := false
          requests_made := (prune (s.requests key) (t - s.time_window)).length
          requests_remaining := 0
          reset_time :=
            pyInt (listMin (prune (s.requests key) (t - s.time_window))
              + s.time_window)
          retry_after :=
            some (max 1 (pyInt (listMin (prune (s.requests key)
              (t - s.time_window)) + s.time_window - t))) } := by
  unfold is_allowed
  simp [h]

theorem evalN_max_requests (s : RateLimiter) (key : String) (t : ℚ) (n : ℕ) :
    (evalN s key t n).max_requests = s.max_requests := by
  induction n with
  | zero => rfl
  | succ k ih => rw [evalN, is_allowed_max_requests, ih]

theorem evalN_time_window (s : RateLimiter) (key : String) (t : ℚ) (n : ℕ) :
    (evalN s key t n).time_window = s.time_window := by
  induction n with
  | zero => rfl
  | succ k ih => rw [evalN, is_allowed_time_window, ih]

theorem evalN_pruned (s : RateLimiter) (key : String) (t : ℚ)
    (hw : 0 < s.time_window)
    (h0 : prune (s.requests key) (t - s.time_window) = [])
    (k : ℕ) (hk : k ≤ s.max_requests) :
    prune ((evalN s key t k).requests key) (t - s.time_window)
      = List.replicate k t := by
  induction k with
  | zero => exact h0
  | succ m ih =>
    have hm : m ≤ s.max_requests := Nat.le_of_succ_le hk
    have hmlt : m < s.max_requests := Nat.lt_of_succ_le hk
    have hprev := ih hm
    have hcond :
        (prune ((evalN s key t m).requests key)
            (t - (evalN s key t m).time_window)).length
          < (evalN s key t m).max_requests := by
      rw [evalN_time_window, evalN_max_requests, hprev, List.length_replicate]
      exact hmlt
    have hreq :
        ((is_allowed (evalN s key t m) key t).2).requests key
          = List.replicate m t ++ [t] := by
      unfold is_allowed
      simp only [hcond, if_pos, Function.update_same]
      rw [evalN_time_window, hprev]
    rw [evalN, hreq, ← List.replicate_succ' m t]
    apply List.filter_eq_self.2
    intro a ha
    have hat : a = t := List.eq_of_mem_replicate ha
    simp only [hat, decide_eq_true_eq]
    exact sub_lt_self t hw

/-- A concrete state: key `"k"` holds the single (stale at `t = 100`)
timestamp `0`; parameters as in `RateLimiter.__init__`. -/
def staleState : RateLimiter :=
  { requests := Function.update (fun _ => []) "k" [0]
    max_requests := 5
    time_window := 60 }

/-- A concrete state: key `"k"` holds five timestamps `0`;
parameters as in `RateLimiter.__init__`. -/
def fullState : RateLimiter :=
  { requests := Function.update (fun _ => []) "k" [0, 0, 0, 0, 0]
    max_requests := 5
    time_window := 60 }

/-! ### Claim theorems -/

/-- C4: calling `peek` (the `/status` handler) any number of times never
changes the stored sequence for the key, and the result of any subsequent
`evaluate` (`is_allowed`) call — verdict, info and post-state alike — is the
same as if the peeks had not happened. -/
theorem C4_peek_no_phantom_consumption (s : RateLimiter) (key : String)
    (t t' : ℚ) (n : ℕ) :
    (peekN s key t n).requests key = s.requests key ∧
    is_allowed (peekN s key t n) key t' = is_allowed s key t' := by
  rw [peekN_eq]
  exact ⟨rfl, rfl⟩

/-- C8: `is_allowed` appends exactly the current time `t` to the key's pruned
stored sequence when it returns `allowed = true`, and appends nothing (the
stored sequence is exactly the pruned one) when it returns `allowed = false`;
the operation is total, always returning a verdict. -/
theorem C8_append_exactly_on_allow (s : RateLimiter) (key : String) (t : ℚ) :
    ((is_allowed s key t).1.1 = true →
      ((is_allowed s key t).2).requests key
        = prune (s.requests key) (t - s.time_window) ++ [t]) ∧
    ((is_allowed s key t).1.1 = false →
      ((is_allowed s key t).2).requests key
        = prune (s.requests key) (t - s.time_window)) := by
  unfold is_allowed
  by_cases h :
      (prune (s.requests key) (t - s.time_window)).length < s.max_requests <;>
    simp [h, Function.update_same]

/-- Witness for C8 at `RateLimiter.init`, `"k"`, `t = 0`: the first call is
allowed and records exactly `[0]`. -/
theorem C8_append_exactly_on_allow_witness :
    (is_allowed RateLimiter.init "k" 0).1.1 = true ∧
    ((is_allowed RateLimiter.init "k" 0).2).requests "k" = [(0 : ℚ)] := by
  refine ⟨by decide, ?_⟩
  have h := (C8_append_exactly_on_allow RateLimiter.init "k" 0).1 (by decide)
  simpa [RateLimiter.init, prune] using h

/-- C6: an `is_allowed` call for key `A` leaves the stored sequence of any
other key `B` unchanged, and the result (verdict and all info fields) of a
subsequent `is_allowed` or `rate_limit_status` call for `B` is the same as
without the call for `A`. -/
theorem C6_cross_key_independence (s : RateLimiter) (A B : String)
    (hne : B ≠ A) (t t' : ℚ) :
    ((is_allowed s A t).2).requests B = s.requests B ∧
    (is_allowed ((is_allowed s A t).2) B t').1 = (is_allowed s B t').1 ∧
    (rate_limit_status ((is_allowed s A t).2) B t').1
      = (rate_limit_status s B t').1 := by
  refine ⟨is_allowed_requests_other s A B t hne, ?_, ?_⟩
  · exact is_allowed_fst_congr _ _ _ _ (is_allowed_requests_other s A B t hne)
      (is_allowed_max_requests s A t) (is_allowed_time_window s A t)
  · exact rate_limit_status_fst_congr _ _ _ _
      (is_allowed_requests_other s A B t hne)
      (is_allowed_max_requests s A t) (is_allowed_time_window s A t)

/-- Witness for C6 at `fullState` (key `"k"` exhausted), keys `A = "k"`,
`B = "b"`, `t = t' = 0`: denying `"k"` leaves `"b"` empty and admissible. -/
theorem C6_cross_key_independence_witness :
    ("b" ≠ "k") ∧
    (((is_allowed fullState "k" 0).2).requests "b" = fullState.requests "b" ∧
     (is_allowed ((is_allowed fullState "k" 0).2) "b" 0).1
       = (is_allowed fullState "b" 0).1 ∧
     (rate_limit_status ((is_allowed fullState "k" 0).2) "b" 0).1
       = (rate_limit_status fullState "b" 0).1) :=
  ⟨by decide, C6_cross_key_independence fullState "k" "b" (by decide) 0 0⟩

/-- C7: if a key's stored sequence holds at most `max_requests` timestamps
before an `is_allowed` call, it still holds at most `max_requests` after. -/
theorem C7_length_never_exceeds_max (s : RateLimiter) (key : String) (t : ℚ)
    (h : (s.requests key).length ≤ s.max_requests) :
    (((is_allowed s key t).2).requests key).length ≤ s.max_requests := by
  have hple := prune_length_le (s.requests key) (t - s.time_window)
  unfold is_allowed
  by_cases hlt :
      (prune (s.requests key) (t - s.time_window)).length < s.max_requests
  · simp only [hlt, if_pos, Function.update_same, List.length_append,
      List.length_singleton]
    omega
  · simp only [hlt, if_neg, not_false_eq_true, Function.update_same]
    exact le_trans hple h

/-- Witness for C7 at `fullState`, `"k"`, `t = 0`: five stored entries before,
still at most five after the (denied) call. -/
theorem C7_length_never_exceeds_max_witness :
    (fullState.requests "k").length ≤ fullState.max_requests ∧
    (((is_allowed fullState "k" 0).2).requests "k").length
      ≤ fullState.max_requests :=
  ⟨by decide, C7_length_never_exceeds_max fullState "k" 0 (by decide)⟩

/-- C5 counterexample: after a `rate_limit_status` (peek) call at `t = 100` on
`staleState`, the stale timestamp `0` is still stored for `"k"` even though it
is not greater than `100 - time_window = 40`: the source's peek does NOT write
the pruned sequence back. -/
theorem C5_cex_peek_keeps_stale_entry :
    (0 : ℚ) ∈ ((rate_limit_status staleState "k" 100).2).requests "k" ∧
    ¬ (100 - ((rate_limit_status staleState "k" 100).2).time_window
        < (0 : ℚ)) := by
  constructor
  · rw [rate_limit_status_snd]
    simp [staleState]
  · rw [rate_limit_status_snd]
    norm_num [staleState]

/-- C5 amended: at the end of every `is_allowed` call (with a positive window)
every timestamp remaining in the key's stored sequence is strictly newer than
`t - time_window`; `rate_limit_status` (peek) leaves the stored mapping
entirely unchanged — it does not write the pruned sequence back, so stale
entries can persist across peeks. -/
theorem C5_evaluate_prunes_peek_reads_only (s : RateLimiter) (key : String)
    (t : ℚ) (hw : 0 < s.time_window) :
    (∀ x ∈ ((is_allowed s key t).2).requests key, t - s.time_window < x) ∧
    (rate_limit_status s key t).2 = s := by
  refine ⟨?_, rate_limit_status_snd s key t⟩
  intro x hx
  unfold is_allowed at hx
  by_cases hlt :
      (prune (s.requests key) (t - s.time_window)).length < s.max_requests
  · simp only [hlt, if_pos, Function.update_same, List.mem_append,
      List.mem_singleton] at hx
    rcases hx with hx | rfl
    · exact (mem_prune.1 hx).2
    · linarith
  · simp only [hlt, if_neg, not_false_eq_true, Function.update_same] at hx
    exact (mem_prune.1 hx).2

/-- Witness for C5 amended at `staleState`, `"k"`, `t = 100`: the stale entry
is gone from the post-`is_allowed` state. -/
theorem C5_evaluate_prunes_peek_reads_only_witness :
    (0 : ℚ) < staleState.time_window ∧
    (∀ x ∈ ((is_allowed staleState "k" 100).2).requests "k",
      100 - staleState.time_window < x) ∧
    (rate_limit_status staleState "k" 100).2 = staleState :=
  ⟨by norm_num [staleState],
   C5_evaluate_prunes_peek_reads_only staleState "k" 100
     (by norm_num [staleState])⟩

/-- A concrete state: key `"k"` holds five timestamps, the oldest (`0`) being
stale at `t = 60`; parameters as in `RateLimiter.__init__`. -/
def mixedState : RateLimiter :=
  { requests := Function.update (fun _ => []) "k" [0, 50, 50, 50, 50]
    max_requests := 5
    time_window := 60 }

/-- C1: starting from a state with no in-window timestamps for a key, each of
the first `max_requests` `is_allowed` calls at one fixed time `t` returns
`allowed = true`, and the `(max_requests + 1)`-th returns `allowed = false`:
the capacity check is strict `<`, so exactly `max_requests` in-window entries
deny the next request. -/
theorem C1_capacity_exhaustion (s : RateLimiter) (key : String) (t : ℚ)
    (hw : 0 < s.time_window)
    (h0 : prune (s.requests key) (t - s.time_window) = []) :
    (∀ k < s.max_requests,
      (is_allowed (evalN s key t k) key t).1.1 = true) ∧
    (is_allowed (evalN s key t s.max_requests) key t).1.1 = false := by
  constructor
  · intro k hk
    rw [is_allowed_fst_fst, evalN_time_window, evalN_max_requests,
      evalN_pruned s key t hw h0 k (Nat.le_of_lt hk), List.length_replicate]
    exact decide_eq_true hk
  · rw [is_allowed_fst_fst, evalN_time_window, evalN_max_requests,
      evalN_pruned s key t hw h0 s.max_requests (le_refl _),
      List.length_replicate]
    exact decide_eq_false (lt_irrefl s.max_requests)

/-- Witness for C1 at `RateLimiter.init`, `"k"`, `t = 0`: calls 1–5 are
allowed, the 6th is denied. -/
theorem C1_capacity_exhaustion_witness :
    (0 : ℚ) < RateLimiter.init.time_window ∧
    prune (RateLimiter.init.requests "k")
      (0 - RateLimiter.init.time_window) = [] ∧
    ((∀ k < RateLimiter.init.max_requests,
        (is_allowed (evalN RateLimiter.init "k" 0 k) "k" 0).1.1 = true) ∧
     (is_allowed (evalN RateLimiter.init "k" 0 RateLimiter.init.max_requests)
        "k" 0).1.1 = false) :=
  ⟨by norm_num [RateLimiter.init], rfl,
   C1_capacity_exhaustion RateLimiter.init "k" 0
     (by norm_num [RateLimiter.init]) rfl⟩

/-- C2: if a key stores exactly `max_requests` timestamps and the oldest of
them has fallen out of the window (`listMin ≤ t - time_window`), the next
`is_allowed` call returns `allowed = true`: pruned entries do not count
against the limit. -/
theorem C2_sliding_eviction (s : RateLimiter) (key : String) (t : ℚ)
    (hmax : 0 < s.max_requests)
    (hlen : (s.requests key).length = s.max_requests)
    (hstale : listMin (s.requests key) ≤ t - s.time_window) :
    (is_allowed s key t).1.1 = true := by
  have hne : s.requests key ≠ [] := by
    intro h
    rw [h] at hlen
    simp at hlen
    omega
  have hmem : listMin (s.requests key) ∈ s.requests key := listMin_mem hne
  have hlt := prune_length_lt hmem hstale
  rw [is_allowed_fst_fst]
  apply decide_eq_true
  omega

/-- Witness for C2 at `mixedState`, `"k"`, `t = 60`: the oldest entry `0` is
stale, so the call is admitted. -/
theorem C2_sliding_eviction_witness :
    0 < mixedState.max_requests ∧
    (mixedState.requests "k").length = mixedState.max_requests ∧
    listMin (mixedState.requests "k") ≤ 60 - mixedState.time_window ∧
    (is_allowed mixedState "k" 60).1.1 = true := by
  have hmin : listMin (mixedState.requests "k") ≤ 60 - mixedState.time_window := by
    show listMin [0, 50, 50, 50, 50] ≤ 60 - (60 : ℚ)
    norm_num [listMin, min_def]
  exact ⟨by decide, by decide, hmin,
    C2_sliding_eviction mixedState "k" 60 (by decide) (by decide) hmin⟩

/-- C10: whenever every stored timestamp for a key is at most the current
time `t` and `is_allowed` denies the request (with the window at least one
second, as the hardcoded 60 is), the returned `retry_after` never exceeds
`time_window`: a denied caller is never told to wait longer than one full
window. -/
theorem C10_retry_after_at_most_window (s : RateLimiter) (key : String)
    (t : ℚ) (hone : 1 ≤ s.time_window) (hmax : 0 < s.max_requests)
    (hts : ∀ x ∈ s.requests key, x ≤ t)
    (hdeny : (is_allowed s key t).1.1 = false) :
    ∃ r, (is_allowed s key t).1.2.retry_after = some r ∧
      (r : ℚ) ≤ s.time_window := by
  have hcond : ¬ (prune (s.requests key) (t - s.time_window)).length
      < s.max_requests := by
    rw [is_allowed_fst_fst] at hdeny
    simpa using hdeny
  have hne : prune (s.requests key) (t - s.time_window) ≠ [] := by
    intro h
    rw [h] at hcond
    simp at hcond
    omega
  set pruned := prune (s.requests key) (t - s.time_window) with hpr
  have hmem : listMin pruned ∈ pruned := listMin_mem hne
  have hmem' : listMin pruned ∈ s.requests key := (mem_prune.1 hmem).1
  have holdest : listMin pruned ≤ t := hts _ hmem'
  refine ⟨max 1 (pyInt (listMin pruned + s.time_window - t)), ?_, ?_⟩
  · rw [is_allowed_deny_info s key t hcond]
  · have hle : listMin pruned + s.time_window - t ≤ s.time_window := by
      linarith
    have hcast := pyInt_le_of_le hle (le_trans zero_le_one hone)
    push_cast
    rw [max_le_iff]
    exact ⟨by exact_mod_cast hone, hcast⟩

/-- Witness for C10 at `fullState`, `"k"`, `t = 0`: the denial reports
`retry_after = 60 ≤ time_window`. -/
theorem C10_retry_after_at_most_window_witness :
    (1 : ℚ) ≤ fullState.time_window ∧ 0 < fullState.max_requests ∧
    (∀ x ∈ fullState.requests "k", x ≤ (0 : ℚ)) ∧
    (is_allowed fullState "k" 0).1.1 = false ∧
    ∃ r, (is_allowed fullState "k" 0).1.2.retry_after = some r ∧
      (r : ℚ) ≤ fullState.time_window := by
  have hts : ∀ x ∈ fullState.requests "k", x ≤ (0 : ℚ) := by
    intro x hx
    have hx' : x ∈ ([0, 0, 0, 0, 0] : List ℚ) := hx
    simp at hx'
    exact le_of_eq hx'
  have hprune : prune (fullState.requests "k") (0 - fullState.time_window)
      = [0, 0, 0, 0, 0] := by
    apply List.filter_eq_self.2
    intro a ha
    have ha' : a ∈ ([0, 0, 0, 0, 0] : List ℚ) := ha
    simp at ha'
    rw [ha']
    exact decide_eq_true (by norm_num [fullState])
  have hdeny : (is_allowed fullState "k" 0).1.1 = false := by
    rw [is_allowed_fst_fst, hprune]
    decide
  exact ⟨by norm_num [fullState], by decide, hts, hdeny,
    C10_retry_after_at_most_window fullState "k" 0 (by norm_num [fullState])
      (by decide) hts hdeny⟩

/-- A concrete state: key `"k"` holds five timestamps `1/2`;
parameters as in `RateLimiter.__init__`. -/
def halfState : RateLimiter :=
  { requests := Function.update (fun _ => []) "k" [1/2, 1/2, 1/2, 1/2, 1/2]
    max_requests := 5
    time_window := 60 }

theorem pyInt_of_nonneg {q : ℚ} (h : 0 ≤ q) : pyInt q = ⌊q⌋ := if_pos h

/-- C3 counterexample: the deny branch truncates with Python `int`, it does
not round, and it truncates `reset_time` as well. At `fullState` (five
timestamps `0`) and `t = 2/5` the code returns `retry_after = 59` while
`max(1, round(min + window − t)) = max(1, round(59.6)) = 60`; at `halfState`
(five timestamps `1/2`) and `t = 1/2` the returned `reset_time` is `60`,
not the exact `min + window = 60.5`. -/
theorem C3_cex_deny_truncates_not_rounds :
    ((is_allowed fullState "k" (2/5)).1.1 = false ∧
     (is_allowed fullState "k" (2/5)).1.2.retry_after = some 59 ∧
     max 1 (round (listMin (prune (fullState.requests "k")
       ((2:ℚ)/5 - fullState.time_window)) + fullState.time_window - 2/5))
       = 60) ∧
    ((is_allowed halfState "k" (1/2)).1.1 = false ∧
     ((is_allowed halfState "k" (1/2)).1.2.reset_time : ℚ)
       ≠ listMin (prune (halfState.requests "k")
           ((1:ℚ)/2 - halfState.time_window)) + halfState.time_window) := by
  have hpruneF : prune (fullState.requests "k")
      ((2:ℚ)/5 - fullState.time_window) = [0, 0, 0, 0, 0] := by
    apply List.filter_eq_self.2
    intro a ha
    have ha' : a ∈ ([0, 0, 0, 0, 0] : List ℚ) := ha
    simp at ha'
    rw [ha']
    exact decide_eq_true (by norm_num [fullState])
  have hcondF : ¬ (prune (fullState.requests "k")
      ((2:ℚ)/5 - fullState.time_window)).length < fullState.max_requests := by
    rw [hpruneF]
    decide
  have hminF : listMin ([0, 0, 0, 0, 0] : List ℚ) = 0 := by
    norm_num [listMin, min_def]
  have hpruneH : prune (halfState.requests "k")
      ((1:ℚ)/2 - halfState.time_window) = [1/2, 1/2, 1/2, 1/2, 1/2] := by
    apply List.filter_eq_self.2
    intro a ha
    have ha' : a ∈ ([1/2, 1/2, 1/2, 1/2, 1/2] : List ℚ) := ha
    simp at ha'
    rw [ha']
    exact decide_eq_true (by norm_num [halfState])
  have hcondH : ¬ (prune (halfState.requests "k")
      ((1:ℚ)/2 - halfState.time_window)).length < halfState.max_requests := by
    rw [hpruneH]
    decide
  have hminH : listMin ([1/2, 1/2, 1/2, 1/2, 1/2] : List ℚ) = 1/2 := by
    norm_num [listMin, min_def]
  refine ⟨⟨?_, ?_, ?_⟩, ?_, ?_⟩
  · rw [is_allowed_fst_fst, hpruneF]
    decide
  · rw [is_allowed_deny_info fullState "k" (2/5) hcondF]
    show some (max 1 (pyInt (listMin (prune (fullState.requests "k")
      ((2:ℚ)/5 - fullState.time_window)) + fullState.time_window - 2/5)))
      = some 59
    rw [hpruneF, hminF]
    have : pyInt ((0 : ℚ) + fullState.time_window - 2/5) = 59 := by
      rw [pyInt_of_nonneg (by norm_num [fullState])]
      norm_num [fullState, Int.floor_eq_iff]
    rw [this]
    decide
  · rw [hpruneF, hminF, round_eq]
    norm_num [fullState, Int.floor_eq_iff]
  · rw [is_allowed_fst_fst, hpruneH]
    decide
  · rw [is_allowed_deny_info halfState "k" (1/2) hcondH]
    show ((pyInt (listMin (prune (halfState.requests "k")
        ((1:ℚ)/2 - halfState.time_window)) + halfState.time_window) : ℤ) : ℚ)
      ≠ listMin (prune (halfState.requests "k")
          ((1:ℚ)/2 - halfState.time_window)) + halfState.time_window
    rw [hpruneH, hminH]
    have : pyInt ((1:ℚ)/2 + halfState.time_window) = 60 := by
      rw [pyInt_of_nonneg (by norm_num [halfState])]
      norm_num [halfState, Int.floor_eq_iff]
    rw [this]
    norm_num [halfState]

/-- C3 amended: on every denial (with at least one allowed slot configured,
as the hardcoded `max_requests = 5` is), the info reports `requests_made`
equal to the post-prune count, `requests_remaining = 0`,
`reset_time = int(min + window)` and
`retry_after = max(1, int((min + window) − t))`, where `int` is Python's
truncation toward zero (not rounding to nearest); in particular
`retry_after ≥ 1` on every denial. -/
theorem C3_denial_info_fields (s : RateLimiter) (key : String) (t : ℚ)
    (_hmax : 0 < s.max_requests)
    (hdeny : (is_allowed s key t).1.1 = false) :
    (is_allowed s key t).1.2.requests_made
      = (prune (s.requests key) (t - s.time_window)).length ∧
    (is_allowed s key t).1.2.requests_remaining = 0 ∧
    (is_allowed s key t).1.2.reset_time
      = pyInt (listMin (prune (s.requests key) (t - s.time_window))
          + s.time_window) ∧
    (is_allowed s key t).1.2.retry_after
      = some (max 1 (pyInt (listMin (prune (s.requests key)
          (t - s.time_window)) + s.time_window - t))) ∧
    (∀ r, (is_allowed s key t).1.2.retry_after = some r → 1 ≤ r) := by
  have hcond : ¬ (prune (s.requests key) (t - s.time_window)).length
      < s.max_requests := by
    rw [is_allowed_fst_fst] at hdeny
    simpa using hdeny
  rw [is_allowed_deny_info s key t hcond]
  refine ⟨rfl, rfl, rfl, rfl, ?_⟩
  intro r hr
  have : max 1 (pyInt (listMin (prune (s.requests key) (t - s.time_window))
      + s.time_window - t)) = r := by
    exact Option.some_injective ℤ hr
  rw [← this]
  exact le_max_left _ _

/-- Witness for C3 amended at `fullState`, `"k"`, `t = 0`: the denial's
`retry_after` is at least 1. -/
theorem C3_denial_info_fields_witness :
    0 < fullState.max_requests ∧
    (is_allowed fullState "k" 0).1.1 = false ∧
    (∀ r, (is_allowed fullState "k" 0).1.2.retry_after = some r → 1 ≤ r) := by
  have hprune : prune (fullState.requests "k") (0 - fullState.time_window)
      = [0, 0, 0, 0, 0] := by
    apply List.filter_eq_self.2
    intro a ha
    have ha' : a ∈ ([0, 0, 0, 0, 0] : List ℚ) := ha
    simp at ha'
    rw [ha']
    exact decide_eq_true (by norm_num [fullState])
  have hdeny : (is_allowed fullState "k" 0).1.1 = false := by
    rw [is_allowed_fst_fst, hprune]
    decide
  exact ⟨by decide, hdeny,
    (C3_denial_info_fields fullState "k" 0 (by decide) hdeny).2.2.2.2⟩

/-- C9 counterexample: on a never-seen key at `t = 1/2`, the returned
`reset_time` is the truncated `int(t + window) = 60`, not the exact
`t + window = 60.5` the claim states, and `window_resets_in` is computed
against `int(t)`, giving `60`, not `max(0, reset_time − t) = 59.5`. -/
theorem C9_cex_status_truncates :
    RateLimiter.init.requests "9.9.9.9" = [] ∧
    ((rate_limit_status RateLimiter.init "9.9.9.9" (1/2)).1.reset_time : ℚ)
      ≠ 1/2 + RateLimiter.init.time_window ∧
    ((rate_limit_status RateLimiter.init "9.9.9.9" (1/2)).1.window_resets_in
        : ℚ)
      ≠ max 0
          (((rate_limit_status RateLimiter.init "9.9.9.9"
              (1/2)).1.reset_time : ℚ) - 1/2) := by
  have hreset : (rate_limit_status RateLimiter.init "9.9.9.9"
      (1/2)).1.reset_time = pyInt (1/2 + RateLimiter.init.time_window) := rfl
  have hpy : pyInt ((1:ℚ)/2 + RateLimiter.init.time_window) = 60 := by
    rw [pyInt_of_nonneg (by norm_num [RateLimiter.init])]
    norm_num [RateLimiter.init, Int.floor_eq_iff]
  have hresets : (rate_limit_status RateLimiter.init "9.9.9.9"
      (1/2)).1.window_resets_in
      = max 0 (pyInt (1/2 + RateLimiter.init.time_window)
          - pyInt (1/2)) := rfl
  have hpyhalf : pyInt ((1:ℚ)/2) = 0 := by
    rw [pyInt_of_nonneg (by norm_num)]
    norm_num [Int.floor_eq_iff]
  refine ⟨rfl, ?_, ?_⟩
  · rw [hreset, hpy]
    norm_num [RateLimiter.init]
  · rw [hresets, hreset, hpy, hpyhalf]
    norm_num

/-- C9 amended: `rate_limit_status` reports `requests_made` = the number of
stored timestamps inside the window, `requests_remaining =
max(0, max_requests − requests_made)`, `reset_time = int(oldest + window)`
for a nonempty in-window set and `int(t + window)` otherwise (`int`
truncating toward zero, not the exact sum), and `window_resets_in =
max(0, reset_time − int(t))` (against the truncated current time); a
never-seen key reports `requests_made = 0`, a full quota remaining, and
`reset_time = int(t + window)`. -/
theorem C9_status_fields (s : RateLimiter) (key : String) (t : ℚ) :
    (rate_limit_status s key t).1.requests_made
      = (s.requests key).countP (fun x => decide (t - s.time_window < x)) ∧
    (rate_limit_status s key t).1.requests_remaining
      = max 0 ((s.max_requests : ℤ)
          - (rate_limit_status s key t).1.requests_made) ∧
    (rate_limit_status s key t).1.reset_time
      = (if prune (s.requests key) (t - s.time_window) = []
         then pyInt (t + s.time_window)
         else pyInt (listMin (prune (s.requests key) (t - s.time_window))
                + s.time_window)) ∧
    (rate_limit_status s key t).1.window_resets_in
      = max 0 ((rate_limit_status s key t).1.reset_time - pyInt t) ∧
    (s.requests key = [] →
      (rate_limit_status s key t).1.requests_made = 0 ∧
      (rate_limit_status s key t).1.requests_remaining
        = (s.max_requests : ℤ) ∧
      (rate_limit_status s key t).1.reset_time = pyInt (t + s.time_window)) := by
  refine ⟨?_, rfl, rfl, rfl, ?_⟩
  · show (prune (s.requests key) (t - s.time_window)).length = _
    rw [List.countP_eq_length_filter]
    rfl
  · intro h
    have hempty : prune (s.requests key) (t - s.time_window) = [] := by
      rw [h]
      rfl
    refine ⟨?_, ?_, ?_⟩
    · show (prune (s.requests key) (t - s.time_window)).length = 0
      rw [hempty]
      rfl
    · show max 0 ((s.max_requests : ℤ)
          - (prune (s.requests key) (t - s.time_window)).length) = _
      rw [hempty]
      simp
    · show (if prune (s.requests key) (t - s.time_window) = []
          then pyInt (t + s.time_window)
          else pyInt (listMin (prune (s.requests key) (t - s.time_window))
                 + s.time_window)) = _
      rw [if_pos hempty]

/-- Witness for C9 amended at `RateLimiter.init`, `"9.9.9.9"`, `t = 0`:
the never-seen key reports zero made, full quota, fresh window. -/
theorem C9_status_fields_witness :
    RateLimiter.init.requests "9.9.9.9" = [] ∧
    ((rate_limit_status RateLimiter.init "9.9.9.9" 0).1.requests_made = 0 ∧
     (rate_limit_status RateLimiter.init "9.9.9.9" 0).1.requests_remaining
       = (RateLimiter.init.max_requests : ℤ) ∧
     (rate_limit_status RateLimiter.init "9.9.9.9" 0).1.reset_time
       = pyInt (0 + RateLimiter.init.time_window)) :=
  ⟨rfl, (C9_status_fields RateLimiter.init "9.9.9.9" 0).2.2.2.2 rfl⟩

end RateLimit
